import Mathlib

/-!
Shallow embedding of the heimdall service (src/src/heimdall/cmd/heimdall.go)
together with the SQLite schema created by the deployment playbook
(src/unnamed/part_000).

Modelling conventions:
- SQLite timestamps (datetime strings in the text storage class) compare
  lexicographically, which on the fixed format used by the service coincides
  with chronological order; they are modelled as Nat.  The server clock
  (datetime(now) / current_timestamp defaults) is passed to each mutating
  operation as an explicit `now` parameter.
- Each logical table is a list of rows in rowid (insertion) order.  SQL
  row scans without an order-by clause iterate in that order.
- Collaborator outputs (TOTP secret generation, certificate signing and
  fingerprint derivation, the fixed-format timestamp parser of the events
  pagination cursor) are passed in as parameters; the claims under study
  condition on collaborator success.
- SQLite values are dynamically typed; a settings value is either TEXT or
  INTEGER (SVal below).  Scanning an INTEGER into a Go string yields its
  decimal rendering, and strconv.ParseInt(v, 10, 32) then recovers the
  integer when it fits in 32 bits; svalParseInt32 models that composite.
- Go panics (including those raised by writeDatabaseByQuery and the two
  "multiple rows" integrity checks) surface as HTTP 500 through the
  recovery middleware; fallible operations return Except Nat with the
  HTTP status as the error value.
-/

deriving instance DecidableEq for Except

namespace Heimdall

/-! ### Generic list machinery: Boolean-relation insertion sort -/

def insertLe (le : α → α → Bool) (x : α) : List α → List α
  | [] => [x]
  | y :: ys => if le x y then x :: y :: ys else y :: insertLe le x ys

def sortLe (le : α → α → Bool) : List α → List α
  | [] => []
  | x :: xs => insertLe le x (sortLe le xs)

theorem insertLe_perm (le : α → α → Bool) (x : α) : ∀ l : List α, (insertLe le x l).Perm (x :: l) := by
  intro l
  induction l with
  | nil => exact List.Perm.refl _
  | cons y ys ih =>
    by_cases h : le x y = true
    · simp [insertLe, h]
    · simp only [insertLe, if_neg h]
      exact (List.Perm.cons y ih).trans (List.Perm.swap x y ys)

theorem sortLe_perm (le : α → α → Bool) : ∀ l : List α, (sortLe le l).Perm l := by
  intro l
  induction l with
  | nil => exact List.Perm.refl _
  | cons x xs ih =>
    exact (insertLe_perm le x (sortLe le xs)).trans (List.Perm.cons x ih)

theorem insertLe_pairwise (le : α → α → Bool)
    (htot : ∀ a b, le a b = true ∨ le b a = true)
    (htr : ∀ a b c, le a b = true → le b c = true → le a c = true)
    (x : α) : ∀ l : List α, l.Pairwise (fun a b => le a b = true) →
    (insertLe le x l).Pairwise (fun a b => le a b = true) := by
  intro l
  induction l with
  | nil => intro _; simp [insertLe]
  | cons y ys ih =>
    intro h
    rcases List.pairwise_cons.mp h with ⟨hy, hys⟩
    by_cases hxy : le x y = true
    · simp only [insertLe, if_pos hxy]
      refine List.pairwise_cons.mpr ⟨?_, h⟩
      intro z hz
      rcases List.mem_cons.mp hz with rfl | hz
      · exact hxy
      · exact htr x y z hxy (hy z hz)
    · simp only [insertLe, if_neg hxy]
      refine List.pairwise_cons.mpr ⟨?_, ih hys⟩
      intro z hz
      have hz' : z ∈ x :: ys := (insertLe_perm le x ys).mem_iff.mp hz
      rcases List.mem_cons.mp hz' with he | hz'
      · subst he
        rcases htot z y with h1 | h1
        · exact absurd h1 hxy
        · exact h1
      · exact hy z hz'

theorem sortLe_pairwise (le : α → α → Bool)
    (htot : ∀ a b, le a b = true ∨ le b a = true)
    (htr : ∀ a b c, le a b = true → le b c = true → le a c = true) :
    ∀ l : List α, (sortLe le l).Pairwise (fun a b => le a b = true) := by
  intro l
  induction l with
  | nil => simp [sortLe]
  | cons x xs ih => exact insertLe_pairwise le htot htr x (sortLe le xs) ih

theorem sortLe_eq_of_pairwise (le : α → α → Bool) :
    ∀ l : List α, l.Pairwise (fun a b => le a b = true) → sortLe le l = l := by
  intro l
  induction l with
  | nil => intro _; rfl
  | cons x xs ih =>
    intro h
    rcases List.pairwise_cons.mp h with ⟨hx, hxs⟩
    have hs : sortLe le (x :: xs) = insertLe le x xs := by
      simp [sortLe, ih hxs]
    rw [hs]
    cases xs with
    | nil => rfl
    | cons y ys =>
      have hl : le x y = true := hx y (List.mem_cons_self y ys)
      simp [insertLe, hl]

/-! ### Lexicographic order on strings (Go compares strings bytewise;
on the data involved this agrees with codepoint order on the char list) -/

def charListLe : List Char → List Char → Bool
  | [], _ => true
  | _ :: _, [] => false
  | a :: as, b :: bs => if a = b then charListLe as bs else decide (a < b)

def strLeB (a b : String) : Bool := charListLe a.data b.data

/-! ### Space-delimited join and split (strings.Join / strings.Split on " ") -/

def joinSpace : List (List Char) → List Char
  | [] => []
  | [x] => x
  | x :: y :: xs => x ++ ' ' :: joinSpace (y :: xs)

def splitSpace : List Char → List Char → List (List Char)
  | acc, [] => [acc.reverse]
  | acc, c :: cs => if c = ' ' then acc.reverse :: splitSpace [] cs else splitSpace (c :: acc) cs

def goJoinSpace (l : List String) : String := String.mk (joinSpace (l.map String.data))

/-- strings.Split(v, " ") followed by the loop that keeps only the nonempty
chunks (loadSettings, WhitelistedDomains case). -/
def goSplitSpaceNE (v : String) : List String :=
  ((splitSpace [] v.data).map (fun t => String.mk t)).filter (fun d => !(decide (d = "")))

theorem splitSpace_append (x : List Char) : ∀ (acc rest : List Char), (' ' ∉ x) →
    splitSpace acc (x ++ rest) = splitSpace (x.reverse ++ acc) rest := by
  induction x with
  | nil => intro acc rest _; simp
  | cons c cs ih =>
    intro acc rest h
    have hc : ¬ c = ' ' := by
      intro he; exact h (he ▸ List.mem_cons_self c cs)
    have h' : ' ' ∉ cs := fun hm => h (List.mem_cons_of_mem c hm)
    simp only [List.cons_append, splitSpace, if_neg hc]
    rw [show (cs.append rest) = cs ++ rest from rfl, ih (c :: acc) rest h']
    simp

theorem splitSpace_joinSpace : ∀ l : List (List Char), (∀ t ∈ l, ' ' ∉ t) → (∀ t ∈ l, t ≠ []) →
    (splitSpace [] (joinSpace l)).filter (fun t => !(decide (t = []))) = l := by
  intro l
  induction l with
  | nil => intro _ _; rfl
  | cons x xs ih =>
    intro h1 h2
    have hx : ' ' ∉ x := h1 x (List.mem_cons_self x xs)
    have hxne : x ≠ [] := h2 x (List.mem_cons_self x xs)
    cases xs with
    | nil =>
      have h0 : joinSpace [x] = x ++ [] := by simp [joinSpace]
      rw [h0, splitSpace_append x [] [] hx]
      simp [splitSpace, hxne]
    | cons y ys =>
      have hj : joinSpace (x :: y :: ys) = x ++ ' ' :: joinSpace (y :: ys) := rfl
      rw [hj, splitSpace_append x [] (' ' :: joinSpace (y :: ys)) hx]
      have hsp : splitSpace (x.reverse ++ []) (' ' :: joinSpace (y :: ys))
           = (x.reverse ++ []).reverse :: splitSpace [] (joinSpace (y :: ys)) := by
        simp [splitSpace]
      rw [hsp]
      simp only [List.append_nil, List.reverse_reverse, List.filter]
      have hxd : (!(decide (x = []))) = true := by simp [hxne]
      rw [hxd]
      have ihres := ih (fun t ht => h1 t (List.mem_cons_of_mem x ht))
        (fun t ht => h2 t (List.mem_cons_of_mem x ht))
      rw [ihres]

theorem goSplit_goJoin (l : List String)
    (h1 : ∀ d ∈ l, ¬ d = "") (h2 : ∀ d ∈ l, ' ' ∉ d.data) :
    goSplitSpaceNE (goJoinSpace l) = l := by
  have hdata : (goJoinSpace l).data = joinSpace (l.map String.data) := rfl
  unfold goSplitSpaceNE
  rw [hdata]
  rw [List.filter_map]
  have hpred : ((fun d => !(decide (d = ""))) ∘ (fun t => String.mk t))
      = (fun t : List Char => !(decide (t = []))) := by
    funext t
    simp [Function.comp, String.ext_iff]
  rw [hpred]
  have hch := splitSpace_joinSpace (l.map String.data)
    (by
      intro t ht
      rcases List.mem_map.mp ht with ⟨d, hd, rfl⟩
      exact h2 d hd)
    (by
      intro t ht
      rcases List.mem_map.mp ht with ⟨d, hd, rfl⟩
      intro hnil
      exact h1 d hd (by
        have hmk : d = String.mk d.data := rfl
        rw [hmk, hnil]))
  rw [hch]
  have : ∀ m : List String, (m.map String.data).map (fun t => String.mk t) = m := by
    intro m
    induction m with
    | nil => rfl
    | cons a as iha => simp [iha]
  exact this l

/-! ### Data model (schema from the deployment playbook) -/

structure TotpRow where
  email : String
  seed : String
  created : Nat
  updated : Nat
deriving DecidableEq

structure CertRow where
  email : String
  fingerprint : String
  desc : String
  created : Nat
  expires : Int
  revoked : Option Nat
deriving DecidableEq

structure EventRow where
  event : String
  email : String
  value : String
  ts : Nat
deriving DecidableEq

/-- Dynamically typed SQLite settings value: the service writes ServiceName
and WhitelistedDomains as TEXT and ClientLimit / IssuedCertDuration as
INTEGER. -/
inductive SVal where
  | str (s : String)
  | int (n : Int)
deriving DecidableEq

structure DB where
  totp : List TotpRow
  certs : List CertRow
  events : List EventRow
  settings : List (String × SVal)
  whitelist : List String
deriving DecidableEq

/-- Sorting key for the sort.Slice calls on certificate lists
(ascending Description). -/
def certLeB (a b : CertRow) : Bool := strLeB a.desc b.desc

/-- Sorting key for events: ts descending (order by ts desc, and the
sort.Slice comparator events[j].Timestamp < events[i].Timestamp). -/
def evGeB (a b : EventRow) : Bool := decide (b.ts ≤ a.ts)

/-! ### Settings (loadSettings / storeSettings) -/

structure Settings where
  serviceName : String
  clientLimit : Int
  issuedCertDuration : Int
  whitelistedDomains : List String
  whitelistedUsers : List String
deriving DecidableEq

/-- The defaulted snapshot loadSettings starts from. -/
def defaultSettings : Settings := ⟨"Bifröst VPN", 2, 90, [], []⟩

/-- Scanning an SQLite value into a Go string. -/
def svalString : SVal → String
  | .str s => s
  | .int n => toString n

/-- Scan into a Go string followed by strconv.ParseInt(v, 10, 32): an
INTEGER round-trips through its decimal rendering when it fits in 32 bits,
a TEXT value is parsed as a decimal integer. -/
def svalParseInt32 : SVal → Option Int
  | .int n => if -(2 ^ 31) ≤ n ∧ n < 2 ^ 31 then some n else none
  | .str s =>
    match s.toInt? with
    | some n => if -(2 ^ 31) ≤ n ∧ n < 2 ^ 31 then some n else none
    | none => none

/-- One iteration of the switch over settings rows in loadSettings.  A
ParseInt failure panics (HTTP 500). -/
def applySettingRow (ret : Settings) (kv : String × SVal) : Except Nat Settings :=
  if kv.1 = "ServiceName" then .ok {ret with serviceName := svalString kv.2}
  else if kv.1 = "ClientLimit" then
    match svalParseInt32 kv.2 with
    | some n => .ok {ret with clientLimit := n}
    | none => .error 500
  else if kv.1 = "IssuedCertDuration" then
    match svalParseInt32 kv.2 with
    | some n => .ok {ret with issuedCertDuration := n}
    | none => .error 500
  else if kv.1 = "WhitelistedDomains" then
    let doms := sortLe strLeB (ret.whitelistedDomains ++ goSplitSpaceNE (svalString kv.2))
    .ok {ret with whitelistedDomains := doms}
  else .ok ret

/-- loadSettings: fold the switch over the settings rows starting from the
defaults, then recompute WhitelistedUsers from the whitelist table
(select email from whitelist order by email, keeping nonempty emails). -/
def loadSettings (db : DB) : Except Nat Settings :=
  match db.settings.foldlM applySettingRow defaultSettings with
  | .error e => .error e
  | .ok ret =>
    let users := (sortLe strLeB db.whitelist).filter (fun e => !(decide (e = "")))
    .ok {ret with whitelistedUsers := users}

/-- insert or replace into settings keyed on the unique key column:
REPLACE deletes any conflicting row and appends the new one. -/
def upsertSetting (rows : List (String × SVal)) (k : String) (v : SVal) : List (String × SVal) :=
  rows.filter (fun kv => !(decide (kv.1 = k))) ++ [(k, v)]

/-- storeSettings: four upserts, in source order; WhitelistedUsers is never
written. -/
def storeSettings (db : DB) (s : Settings) : DB :=
  let r1 := upsertSetting db.settings "ServiceName" (.str s.serviceName)
  let r2 := upsertSetting r1 "IssuedCertDuration" (.int s.issuedCertDuration)
  let r3 := upsertSetting r2 "ClientLimit" (.int s.clientLimit)
  let r4 := upsertSetting r3 "WhitelistedDomains" (.str (goJoinSpace s.whitelistedDomains))
  {db with settings := r4}

/-! ### /user/<email> handler branches.  The empty-path-segment check
(extractSegment yielding "") happens in the orchestrator before these
branches; the branch functions receive the parsed nonempty email. -/

/-- Row transformer of: update certs set revoked=datetime(now) where fingerprint=? -/
def revokeAt (fp : String) (now : Nat) (x : CertRow) : CertRow :=
  if x.fingerprint = fp then {x with revoked := some now} else x

/-- Row transformer of: update certs set revoked=datetime(now) where email=? -/
def revokeAllFor (email : String) (now : Nat) (c : CertRow) : CertRow :=
  if c.email = email then {c with revoked := some now} else c

structure UserView where
  email : String
  created : Nat
  activeCerts : List CertRow
  revokedCerts : List CertRow
deriving DecidableEq

/-- GET /user/<email> (Describe of an identity): 404 when no totp row,
500 on duplicate rows, otherwise the certs of the email partitioned into
active (revoked null) and revoked, each sorted by description ascending.
The wire struct omits the email column of a cert row; we keep the full
row. -/
def userHandlerGET (db : DB) (email : String) : Except Nat UserView :=
  match db.totp.filter (fun t => decide (t.email = email)) with
  | [] => .error 404
  | [t] =>
    let cs := db.certs.filter (fun c => decide (c.email = email))
    .ok ⟨email, t.created,
         sortLe certLeB (cs.filter (fun c => decide (c.revoked = none))),
         sortLe certLeB (cs.filter (fun c => !(decide (c.revoked = none))))⟩
  | _ => .error 500

/-- PUT /user/<email> (EnrollOrRotate): loads settings (the TOTP issuer),
generates a fresh secret (collaborator output, passed as `seed`), then
runs insert or replace into totp (email, seed, updated) values (?, ?, now).
REPLACE on the unique email column deletes the old row; the created column
is not in the column list, so it takes its default current_timestamp.
(The Go call also binds a stray third parameter; the SQLite driver of the
deployed stack silently drops surplus bindings, so the statement still
executes.)  Appends the "TOTP set" audit event and returns the secret. -/
def userHandlerPUT (db : DB) (now : Nat) (email seed : String) : Except Nat (DB × String) :=
  match loadSettings db with
  | .error e => .error e
  | .ok _ =>
    let totp' := db.totp.filter (fun t => !(decide (t.email = email))) ++ [⟨email, seed, now, now⟩]
    let events' := db.events ++ [⟨"TOTP set", email, "", now⟩]
    .ok ({db with totp := totp', events := events'}, seed)

/-- DELETE /user/<email> (Remove): reads the fingerprints of ALL cert rows
owned by the email (select fingerprint from certs where email=?), if any
exist sets revoked=now on every one of those rows, deletes the totp row,
appends the "user deleted" audit event with the count of fingerprints
read, and answers 200 with the fingerprint list. -/
def userHandlerDELETE (db : DB) (now : Nat) (email : String) : DB × Nat × List String :=
  let fps := (db.certs.filter (fun c => decide (c.email = email))).map (fun c => c.fingerprint)
  let certs' := if fps.length > 0 then db.certs.map (revokeAllFor email now) else db.certs
  let totp' := db.totp.filter (fun t => !(decide (t.email = email)))
  let events' := db.events ++ [⟨"user deleted", email, toString fps.length ++ " certs revoked", now⟩]
  ({db with certs := certs', totp := totp', events := events'}, 200, fps)

/-! ### GET /certs (ListAll) -/

/-- The inner join select t.email, t.created, c.* from totp as t, certs
as c where t.email=c.email, enumerated per identity row. -/
def certsAllRows (db : DB) : List (TotpRow × CertRow) :=
  (db.totp.map (fun t =>
    (db.certs.filter (fun c => decide (c.email = t.email))).map (fun c => (t, c)))).flatten

/-- The row loop of the GET /certs branch.  The Go source declares
var u *user and then shadows u in the initializer of
if u, ok := users[email]; !ok: the variable assigned inside the if body is
the if-scoped one, so the outer u (uOuter here) is still nil when
u.ActiveCerts is appended to, and the loop dereferences a nil pointer on
every row (panic, recovered as HTTP 500).  The branch below the match is
the code as written (note its inverted revoked test), kept for fidelity;
it is unreachable. -/
def certsAllLoop : List (TotpRow × CertRow) → List (String × UserView) → Except Nat (List (String × UserView))
  | [], users => .ok users
  | (t, c) :: rest, users =>
    let uOuter : Option UserView := none
    let users1 := if (users.find? (fun kv => decide (kv.1 = c.email))).isSome then users
                  else users ++ [(c.email, ⟨c.email, t.created, [], []⟩)]
    match uOuter with
    | none => .error 500
    | some u =>
      let u' := if !(decide (c.revoked = none))
                then {u with activeCerts := u.activeCerts ++ [c]}
                else {u with revokedCerts := u.revokedCerts ++ [c]}
      certsAllLoop rest (users1.map (fun kv => if kv.1 = c.email then (kv.1, u') else kv))

/-- Sorting key for the final sort.Slice on the /certs response
(ascending Email). -/
def userLeB (a b : UserView) : Bool := strLeB a.email b.email

/-- GET /certs (ListAll): run the row loop over the inner join, then sort
each group by description and the groups by email. -/
def certsHandlerGETall (db : DB) : Except Nat (List UserView) :=
  match certsAllLoop (certsAllRows db) [] with
  | .error e => .error e
  | .ok users =>
    let groups := users.map (fun kv =>
      {kv.2 with activeCerts := sortLe certLeB kv.2.activeCerts,
                 revokedCerts := sortLe certLeB kv.2.revokedCerts})
    .ok (sortLe userLeB groups)

/-! ### POST /certs/<email> (Issue) -/

structure IssueReq where
  email : String
  description : String
deriving DecidableEq

/-- POST /certs/<email>: 400 on empty path email, unparsable body,
URL/body email mismatch, or empty description (in that order); then 404
when no totp row exists for the email (500 on duplicates); then the
signing pipeline runs (serial allocation, CA load, keypair creation,
fingerprint derivation, template render: collaborators, summarized by the
given fingerprint `fp`), settings are loaded for the cert duration, the
ledger row (email, fingerprint, desc, expires = now + duration days,
created defaulted to now) is inserted and the "certificate issued" audit
event appended; 201 on success. -/
def certsHandlerPOST (db : DB) (now : Nat) (email : String) (body : Option IssueReq)
    (fp : String) : Except Nat (DB × Nat) :=
  if email = "" then .ok (db, 400)
  else match body with
  | none => .ok (db, 400)
  | some b =>
    if !(decide (email = b.email)) then .ok (db, 400)
    else if b.description = "" then .ok (db, 400)
    else match db.totp.filter (fun t => decide (t.email = email)) with
      | [] => .ok (db, 404)
      | [_] =>
        match loadSettings db with
        | .error e => .error e
        | .ok s =>
          let certs' := db.certs ++
            [⟨email, fp, b.description, now, (now : Int) + s.issuedCertDuration, none⟩]
          let events' := db.events ++
            [⟨"certificate issued", email, fp ++ " - " ++ b.description, now⟩]
          .ok ({db with certs := certs', events := events'}, 201)
      | _ => .error 500

/-! ### /cert/<fingerprint> handler branches -/

/-- GET /cert/<fingerprint> (Describe of a certificate): 404 when no row,
500 on duplicate rows for one fingerprint, otherwise the row. -/
def certHandlerGET (db : DB) (fp : String) : Except Nat CertRow :=
  match db.certs.filter (fun c => decide (c.fingerprint = fp)) with
  | [] => .error 404
  | [c] => .ok c
  | _ => .error 500

/-- DELETE /cert/<fingerprint> (Revoke): select email from certs where
fingerprint=? takes the first matching row; unknown fingerprints answer
200 with no writes; otherwise revoked=now is set on the matching rows
unconditionally (also when already revoked) and a "certificate revoked"
audit event is appended; 200 either way. -/
def certHandlerDELETE (db : DB) (now : Nat) (fp : String) : DB × Nat :=
  match db.certs.find? (fun c => decide (c.fingerprint = fp)) with
  | none => (db, 200)
  | some c =>
    let certs' := db.certs.map (revokeAt fp now)
    let events' := db.events ++ [⟨"certificate revoked", c.email, fp, now⟩]
    ({db with certs := certs', events := events'}, 200)

/-! ### /events handler -/

/-- The listing part of the events handler, shared by GET and DELETE.
parseTs is the fixed-format timestamp parser (time.Parse with the layout
2006-01-02T15:04:05Z), a library collaborator, passed as a parameter;
a parse failure answers 400. -/
def eventsList (parseTs : String → Option Nat) (db : DB) (before : String) :
    Except Nat (List EventRow) :=
  if before = "" then .ok ((sortLe evGeB db.events).take 25)
  else if before = "all" then .ok (sortLe evGeB db.events)
  else match parseTs before with
    | none => .error 400
    | some t => .ok ((sortLe evGeB (db.events.filter (fun e => decide (e.ts < t)))).take 25)

/-- The events handler: produce the listing (respecting the before
parameter), and on DELETE additionally delete all events and insert the
single "events log reset" row whose value renders the LENGTH OF THE
LISTING JUST SENT (len(events)), not the number of rows deleted. -/
def eventsHandler (parseTs : String → Option Nat) (db : DB) (now : Nat) (before : String)
    (isDelete : Bool) : Except Nat (DB × List EventRow) :=
  match eventsList parseTs db before with
  | .error e => .error e
  | .ok evs =>
    if isDelete then
      let events' := [(⟨"events log reset", "", toString evs.length ++ " events cleared", now⟩ : EventRow)]
      .ok ({db with events := events'}, evs)
    else .ok (db, evs)

/-! ### Helper lemmas -/

theorem evGeB_total : ∀ a b : EventRow, evGeB a b = true ∨ evGeB b a = true := by
  intro a b
  rcases Nat.le_total b.ts a.ts with h | h
  · left; exact decide_eq_true h
  · right; exact decide_eq_true h

theorem evGeB_trans : ∀ a b c : EventRow, evGeB a b = true → evGeB b c = true → evGeB a c = true := by
  intro a b c hab hbc
  exact decide_eq_true (Nat.le_trans (of_decide_eq_true hbc) (of_decide_eq_true hab))

/-- A map that preserves fingerprints commutes with a fingerprint filter. -/
theorem filter_fp_map (g : CertRow → CertRow) (hg : ∀ x, (g x).fingerprint = x.fingerprint)
    (l : List CertRow) (fp : String) :
    (l.map g).filter (fun c => decide (c.fingerprint = fp))
      = (l.filter (fun c => decide (c.fingerprint = fp))).map g := by
  rw [List.filter_map]
  have hcomp : ((fun c => decide (c.fingerprint = fp)) ∘ g)
      = (fun c : CertRow => decide (c.fingerprint = fp)) := by
    funext x
    simp [Function.comp, hg x]
  rw [hcomp]

/-- A map that preserves fingerprints commutes with a fingerprint lookup. -/
theorem find?_fp_map (g : CertRow → CertRow) (hg : ∀ x, (g x).fingerprint = x.fingerprint)
    (l : List CertRow) (fp : String) :
    (l.map g).find? (fun c => decide (c.fingerprint = fp))
      = Option.map g (l.find? (fun c => decide (c.fingerprint = fp))) := by
  rw [List.find?_map]
  have hcomp : ((fun c => decide (c.fingerprint = fp)) ∘ g)
      = (fun c : CertRow => decide (c.fingerprint = fp)) := by
    funext x
    simp [Function.comp, hg x]
  rw [hcomp]

/-- Under pairwise-distinct fingerprints a fingerprint filter returns
exactly the matching row. -/
theorem filter_fp_singleton (l : List CertRow) (c : CertRow)
    (hfp : l.Pairwise (fun a b => a.fingerprint ≠ b.fingerprint)) (hc : c ∈ l) :
    l.filter (fun x => decide (x.fingerprint = c.fingerprint)) = [c] := by
  induction l with
  | nil => cases hc
  | cons a as ih =>
    rcases List.pairwise_cons.mp hfp with ⟨ha, has⟩
    rcases List.mem_cons.mp hc with he | hc'
    · subst he
      have hrest : as.filter (fun x => decide (x.fingerprint = c.fingerprint)) = [] := by
        rw [List.filter_eq_nil_iff]
        intro x hx
        simp only [decide_eq_true_eq]
        intro he2
        exact (ha x hx) he2.symm
      simp [List.filter, hrest]
    · have hne : ¬ (a.fingerprint = c.fingerprint) := ha c hc'
      simp [List.filter, hne, ih has hc']

/-- Rows whose key is none of the four stored settings keys leave the
settings fold unchanged. -/
theorem foldlM_applySettingRow_skip (l : List (String × SVal))
    (h : ∀ kv ∈ l, ¬ kv.1 = "ServiceName" ∧ ¬ kv.1 = "ClientLimit"
       ∧ ¬ kv.1 = "IssuedCertDuration" ∧ ¬ kv.1 = "WhitelistedDomains") :
    ∀ ret : Settings, l.foldlM applySettingRow ret = .ok ret := by
  induction l with
  | nil => intro ret; rfl
  | cons kv kvs ih =>
    intro ret
    obtain ⟨h1, h2, h3, h4⟩ := h kv (List.mem_cons_self _ _)
    have hstep : applySettingRow ret kv = .ok ret := by
      unfold applySettingRow
      rw [if_neg h1, if_neg h2, if_neg h3, if_neg h4]
    have hrec := ih (fun x hx => h x (List.mem_cons_of_mem kv hx)) ret
    simp only [List.foldlM, hstep]
    exact hrec

/-! ### Claim C1 -/

def dbC1 : DB := ⟨[⟨"alice", "s0", 1, 1⟩], [⟨"alice", "f1", "laptop", 2, 92, none⟩], [], [], []⟩

/-- Claim C1: the claim states that GET /certs returns one group per email
with a live identity row, partitioned into active and revoked certificates.
On any state where the identity-certificate join is nonempty the handler
instead dereferences a shadowed nil pointer and answers 500: here a state
with one identity owning one active certificate makes certsHandlerGETall
fail, so the handler can never produce the described grouping for nonempty
data (and the partition test it would have run is inverted as well). -/
theorem c1_certs_listAll_panics :
    certsHandlerGETall dbC1 = .error 500
  ∧ ¬ dbC1.totp = [] ∧ ¬ dbC1.certs = [] := by decide

/-! ### Claim C2 -/

def dbC2 : DB := ⟨[], [⟨"alice", "ff", "d", 0, 9, none⟩], [], [], []⟩

/-- Claim C2 counterexample: revoking the known fingerprint ff twice
appends two "certificate revoked" audit events, not one, and the second
call does change the audit log. -/
theorem c2_revoke_twice_two_audit_events :
    ((certHandlerDELETE (certHandlerDELETE dbC2 3 "ff").1 4 "ff").1.events.filter
        (fun e => decide (e.event = "certificate revoked"))).length = 2
  ∧ ¬ ((certHandlerDELETE (certHandlerDELETE dbC2 3 "ff").1 4 "ff").1.events
        = (certHandlerDELETE dbC2 3 "ff").1.events) := by decide

/-- Fingerprint preservation of the revocation row transformer. -/
theorem revokeAt_fingerprint (fp : String) (now : Nat) (x : CertRow) :
    (revokeAt fp now x).fingerprint = x.fingerprint := by
  unfold revokeAt
  by_cases hx : x.fingerprint = fp <;> simp [hx]

/-- Email preservation of the revocation row transformer. -/
theorem revokeAt_email (fp : String) (now : Nat) (x : CertRow) :
    (revokeAt fp now x).email = x.email := by
  unfold revokeAt
  by_cases hx : x.fingerprint = fp <;> simp [hx]

/-- The write path of DELETE /cert/<fp> when the fingerprint is found. -/
theorem certHandlerDELETE_found (db : DB) (now : Nat) (fp : String) (c : CertRow)
    (h : db.certs.find? (fun x => decide (x.fingerprint = fp)) = some c) :
    certHandlerDELETE db now fp
      = ({db with certs := db.certs.map (revokeAt fp now), events := db.events ++ [⟨"certificate revoked", c.email, fp, now⟩]}, 200) := by
  simp [certHandlerDELETE, h]

/-- Claim C2 amended: each DELETE /cert/<fp> call on a fingerprint present
in the store appends one "certificate revoked" audit event, so two calls
append two events (the revocation timestamp is simply overwritten); the
write layer does not guard repeated revocations. -/
theorem c2_revoke_appends_per_call (db : DB) (fp : String) (now1 now2 : Nat) (c : CertRow)
    (h : db.certs.find? (fun x => decide (x.fingerprint = fp)) = some c) :
    (certHandlerDELETE db now1 fp).1.events
      = db.events ++ [⟨"certificate revoked", c.email, fp, now1⟩]
  ∧ (certHandlerDELETE (certHandlerDELETE db now1 fp).1 now2 fp).1.events
      = db.events ++ [⟨"certificate revoked", c.email, fp, now1⟩,
                      ⟨"certificate revoked", c.email, fp, now2⟩] := by
  have h1 := certHandlerDELETE_found db now1 fp c h
  refine ⟨by rw [h1], ?_⟩
  have hfind2 : (certHandlerDELETE db now1 fp).1.certs.find?
      (fun x => decide (x.fingerprint = fp)) = some (revokeAt fp now1 c) := by
    rw [h1]
    have hm := find?_fp_map (revokeAt fp now1) (revokeAt_fingerprint fp now1) db.certs fp
    simp only
    rw [hm, h]
    rfl
  have h2 := certHandlerDELETE_found (certHandlerDELETE db now1 fp).1 now2 fp _ hfind2
  rw [h2, h1]
  simp [revokeAt_email]

def dbC2w : DB := ⟨[], [⟨"bob", "f9", "d", 0, 9, none⟩], [], [], []⟩

/-- Witness for the amended C2 theorem at a concrete store. -/
theorem c2_revoke_appends_per_call_witness :
    (certHandlerDELETE dbC2w 3 "f9").1.events
      = dbC2w.events ++ [⟨"certificate revoked", "bob", "f9", 3⟩]
  ∧ (certHandlerDELETE (certHandlerDELETE dbC2w 3 "f9").1 4 "f9").1.events
      = dbC2w.events ++ [⟨"certificate revoked", "bob", "f9", 3⟩,
                         ⟨"certificate revoked", "bob", "f9", 4⟩] :=
  c2_revoke_appends_per_call dbC2w "f9" 3 4 ⟨"bob", "f9", "d", 0, 9, none⟩ (by decide)

/-! ### Claim C3 -/

def dbC3 : DB := ⟨[⟨"alice", "seed0", 1, 1⟩], [], [], [], []⟩

/-- Claim C3: the claim states re-enrollment preserves the created
timestamp.  Evaluating the code at an identity created at time 1 and
re-enrolled at time 5: INSERT OR REPLACE deletes the old row and the
created column takes its default current_timestamp, so created becomes 5
instead of staying 1 (only seed and updated were supposed to change). -/
theorem c3_reenroll_resets_created :
    userHandlerPUT dbC3 5 "alice" "seed1"
      = .ok (⟨[⟨"alice", "seed1", 5, 5⟩], [], [⟨"TOTP set", "alice", "", 5⟩], [], []⟩, "seed1")
  ∧ dbC3.totp.map TotpRow.created = [1] := by decide

/-! ### Claim C4 -/

/-- Fingerprint preservation of the bulk revocation row transformer. -/
theorem revokeAllFor_fingerprint (email : String) (now : Nat) (x : CertRow) :
    (revokeAllFor email now x).fingerprint = x.fingerprint := by
  unfold revokeAllFor
  by_cases hx : x.email = email <;> simp [hx]

def dbC4x : DB := ⟨[⟨"alice", "s", 0, 0⟩], [⟨"alice", "f1", "d1", 0, 9, none⟩, ⟨"alice", "f2", "d2", 0, 9, some 1⟩], [], [], []⟩

/-- Claim C4 counterexample: alice has exactly one active (unrevoked)
certificate, yet DELETE /user/alice returns two fingerprints, because the
handler reads ALL certificate rows of the email, revoked ones included. -/
theorem c4_remove_returns_all_not_active :
    (userHandlerDELETE dbC4x 5 "alice").2.2 = ["f1", "f2"]
  ∧ (dbC4x.certs.filter (fun c => decide (c.email = "alice" ∧ c.revoked = none))).length = 1
  ∧ ¬ ((userHandlerDELETE dbC4x 5 "alice").2.2).length = 1 := by decide

/-- Claim C4 amended: for an existing identity whose certificate rows are
all unrevoked and number exactly N, DELETE /user/<email> returns exactly N
revoked fingerprints (in general it returns one fingerprint per
certificate row of the email, previously revoked rows included, and
overwrites their revocation timestamps); afterwards GET /user/<email> is
NotFound while GET /cert/<fp> still succeeds for each returned
fingerprint. -/
theorem c4_remove_amended (db : DB) (now : Nat) (email : String) (N : Nat)
    (hid : ¬ db.totp.filter (fun t => decide (t.email = email)) = [])
    (hcount : (db.certs.filter (fun c => decide (c.email = email))).length = N)
    (hactive : ∀ c ∈ db.certs, c.email = email → c.revoked = none)
    (hdistinct : db.certs.Pairwise (fun a b => a.fingerprint ≠ b.fingerprint)) :
    ((userHandlerDELETE db now email).2.2).length = N
  ∧ userHandlerGET (userHandlerDELETE db now email).1 email = .error 404
  ∧ ∀ fp ∈ (userHandlerDELETE db now email).2.2,
      ∃ c, certHandlerGET (userHandlerDELETE db now email).1 fp = .ok c := by
  have hfps_def : (userHandlerDELETE db now email).2.2
      = (db.certs.filter (fun c => decide (c.email = email))).map (fun c => c.fingerprint) := rfl
  have htotp_def : (userHandlerDELETE db now email).1.totp
      = db.totp.filter (fun t => !(decide (t.email = email))) := rfl
  refine ⟨?_, ?_, ?_⟩
  · rw [hfps_def, List.length_map]
    exact hcount
  · have hf : (userHandlerDELETE db now email).1.totp.filter
        (fun t => decide (t.email = email)) = [] := by
      rw [htotp_def, List.filter_filter, List.filter_eq_nil_iff]
      intro a _
      by_cases hx : a.email = email <;> simp [hx]
    simp [userHandlerGET, hf]
  · intro fp hmem
    rw [hfps_def] at hmem
    obtain ⟨c, hcf, hfpc⟩ := List.mem_map.mp hmem
    obtain ⟨hcdb, hcemail⟩ := List.mem_filter.mp hcf
    have hpos : ((db.certs.filter (fun c => decide (c.email = email))).map
        (fun c => c.fingerprint)).length > 0 :=
      List.length_pos.mpr (List.ne_nil_of_mem (hfps_def ▸ hmem))
    have hcerts : (userHandlerDELETE db now email).1.certs
        = db.certs.map (revokeAllFor email now) := by
      show (if ((db.certs.filter (fun c => decide (c.email = email))).map
          (fun c => c.fingerprint)).length > 0
        then db.certs.map (revokeAllFor email now) else db.certs)
          = db.certs.map (revokeAllFor email now)
      rw [if_pos hpos]
    subst hfpc
    refine ⟨revokeAllFor email now c, ?_⟩
    unfold certHandlerGET
    rw [hcerts,
      filter_fp_map (revokeAllFor email now) (revokeAllFor_fingerprint email now)
        db.certs c.fingerprint,
      filter_fp_singleton db.certs c hdistinct hcdb]
    rfl

def dbC4w : DB := ⟨[⟨"alice", "s", 0, 0⟩], [⟨"alice", "f1", "d1", 0, 9, none⟩, ⟨"alice", "f2", "d2", 0, 9, none⟩], [], [], []⟩

/-- Witness for the amended C4 theorem at a concrete store with two
active certificates. -/
theorem c4_remove_amended_witness :
    ((userHandlerDELETE dbC4w 7 "alice").2.2).length = 2
  ∧ userHandlerGET (userHandlerDELETE dbC4w 7 "alice").1 "alice" = .error 404
  ∧ ∀ fp ∈ (userHandlerDELETE dbC4w 7 "alice").2.2,
      ∃ c, certHandlerGET (userHandlerDELETE dbC4w 7 "alice").1 fp = .ok c :=
  c4_remove_amended dbC4w 7 "alice" 2 (by decide) (by decide) (by decide) (by decide)

/-! ### Claim C5 -/

def dbC5x : DB := storeSettings ⟨[], [], [], [], []⟩ ⟨"X", 2 ^ 31, 90, [], []⟩

/-- Claim C5 counterexample: a storage state reachable through the
service itself (PUT /settings with ClientLimit = 2^31, which storeSettings
persists unchecked) makes every subsequent PUT /user/<email> answer 500:
loadSettings runs strconv.ParseInt(v, 10, 32) on the stored value and
panics on the out-of-range integer, although neither the TOTP generator
nor the storage engine failed (the fresh seed is already in hand).  This
refutes the claim that EnrollOrRotate never returns an error of its own
on any storage state. -/
theorem c5_large_clientLimit_500 :
    userHandlerPUT dbC5x 5 "alice" "sd" = .error 500
  ∧ loadSettings dbC5x = .error 500 := by decide

/-- Claim C5 amended: PUT /user/<email> (EnrollOrRotate) succeeds on
every storage state whose settings rows load cleanly - in particular on
every state whose ClientLimit and IssuedCertDuration values fit in 32
bits, which storing any valid snapshot maintains: whenever the settings
load succeeds (and the TOTP and storage collaborators succeed, which the
embedding models by passing their outputs), it returns the fresh secret,
upserts the identity row, appends exactly one "TOTP set" audit event,
and touches nothing else.  It is not error-free on every storage state:
see the counterexample above. -/
theorem c5_enroll_never_fails (db : DB) (now : Nat) (email seed : String) (s : Settings)
    (h : loadSettings db = .ok s) :
    ∃ r : DB × String, userHandlerPUT db now email seed = .ok r
  ∧ r.2 = seed
  ∧ r.1.totp = db.totp.filter (fun t => !(decide (t.email = email))) ++ [⟨email, seed, now, now⟩]
  ∧ r.1.events = db.events ++ [⟨"TOTP set", email, "", now⟩]
  ∧ r.1.certs = db.certs ∧ r.1.settings = db.settings ∧ r.1.whitelist = db.whitelist := by
  unfold userHandlerPUT
  rw [h]
  exact ⟨_, rfl, rfl, rfl, rfl, rfl, rfl, rfl⟩

def dbC5 : DB := ⟨[], [], [], [], []⟩

/-- Witness for C5 at the empty store. -/
theorem c5_enroll_never_fails_witness :
    ∃ r : DB × String, userHandlerPUT dbC5 7 "bob" "sd" = .ok r
  ∧ r.2 = "sd"
  ∧ r.1.totp = dbC5.totp.filter (fun t => !(decide (t.email = "bob"))) ++ [⟨"bob", "sd", 7, 7⟩]
  ∧ r.1.events = dbC5.events ++ [⟨"TOTP set", "bob", "", 7⟩]
  ∧ r.1.certs = dbC5.certs ∧ r.1.settings = dbC5.settings ∧ r.1.whitelist = dbC5.whitelist :=
  c5_enroll_never_fails dbC5 7 "bob" "sd" defaultSettings (by decide)

/-! ### Claim C9 -/

def dbC9 : DB := ⟨[], [], [], [], []⟩

/-- Claim C9 counterexample: for an email with no identity row AND an
empty description, the handler answers 400 (the description check runs
first), not the 404 the claim asserts for every missing identity. -/
theorem c9_empty_description_beats_missing_identity :
    certsHandlerPOST dbC9 1 "alice" (some ⟨"alice", ""⟩) "f" = .ok (dbC9, 400)
  ∧ dbC9.totp.filter (fun t => decide (t.email = "alice")) = [] := by decide

/-- Claim C9 amended: POST /certs/<email> checks the body first: an empty
description answers 400 with no state change even when the identity is
also missing; with a nonempty description a missing identity answers 404
with no state change; and when both preconditions hold (and the signing
collaborators succeed) the ledger row (email, fingerprint, description,
expires = now + configured duration) is persisted and a "certificate
issued" audit event is appended, status 201. -/
theorem c9_issue_amended (db : DB) (now : Nat) (email : String) (b : IssueReq) (fp : String)
    (hemail : ¬ email = "") (hmatch : b.email = email) :
    (b.description = "" → certsHandlerPOST db now email (some b) fp = .ok (db, 400))
  ∧ (¬ b.description = "" → db.totp.filter (fun t => decide (t.email = email)) = [] →
       certsHandlerPOST db now email (some b) fp = .ok (db, 404))
  ∧ (∀ (u : TotpRow) (s : Settings), ¬ b.description = "" →
       db.totp.filter (fun t => decide (t.email = email)) = [u] →
       loadSettings db = .ok s →
       certsHandlerPOST db now email (some b) fp
         = .ok ({db with certs := db.certs ++ [⟨email, fp, b.description, now, (now : Int) + s.issuedCertDuration, none⟩], events := db.events ++ [⟨"certificate issued", email, fp ++ " - " ++ b.description, now⟩]}, 201)) := by
  refine ⟨?_, ?_, ?_⟩
  · intro hd
    simp [certsHandlerPOST, hemail, hmatch, hd]
  · intro hd hfil
    simp [certsHandlerPOST, hemail, hmatch, hd, hfil]
  · intro u s hd hfil hload
    simp [certsHandlerPOST, hemail, hmatch, hd, hfil, hload]

def dbC9w : DB := ⟨[⟨"alice", "s", 0, 0⟩], [], [], [], []⟩

/-- Witness for the amended C9 theorem: successful issuance for alice. -/
theorem c9_issue_amended_witness :
    certsHandlerPOST dbC9w 2 "alice" (some ⟨"alice", "laptop"⟩) "fp1"
      = .ok ({dbC9w with certs := dbC9w.certs ++ [⟨"alice", "fp1", "laptop", 2, 92, none⟩], events := dbC9w.events ++ [⟨"certificate issued", "alice", "fp1" ++ " - " ++ "laptop", 2⟩]}, 201) :=
  (c9_issue_amended dbC9w 2 "alice" ⟨"alice", "laptop"⟩ "fp1" (by decide) (by decide)).2.2
    ⟨"alice", "s", 0, 0⟩ defaultSettings (by decide) (by decide) (by decide)

/-! ### Claim C10 -/

def dbC10 : DB := ⟨[], [⟨"alice", "f1", "d", 0, 9, none⟩], [], [], []⟩

/-- Claim C10 counterexample: alice has no identity row but owns an
orphaned certificate row; DELETE /user/alice returns that fingerprint
(not an empty list) and logs "1 certs revoked" (not "0 certs revoked"). -/
theorem c10_orphan_certs_refute_empty_list :
    (userHandlerDELETE dbC10 5 "alice").2.2 = ["f1"]
  ∧ ¬ ((userHandlerDELETE dbC10 5 "alice").2.2 = [])
  ∧ (userHandlerDELETE dbC10 5 "alice").1.events.map EventRow.value = ["1 certs revoked"]
  ∧ dbC10.totp = [] := by decide

/-- Claim C10 amended: for an email with no identity row AND no
certificate rows, DELETE /user/<email> still answers 200 with an empty
revoked list and still appends a "user deleted" audit event valued
"0 certs revoked"; no 404 exists at this interface (in general the
returned list holds every certificate fingerprint of the email, identity
row or not). -/
theorem c10_remove_absent_amended (db : DB) (now : Nat) (email : String)
    (hcerts : db.certs.filter (fun c => decide (c.email = email)) = [])
    (htotp : ∀ t ∈ db.totp, ¬ t.email = email) :
    userHandlerDELETE db now email
      = ({db with events := db.events ++ [⟨"user deleted", email, "0 certs revoked", now⟩]}, 200, []) := by
  have htid : db.totp.filter (fun t => !(decide (t.email = email))) = db.totp :=
    List.filter_eq_self.mpr (by intro t ht; simpa using htotp t ht)
  simp [userHandlerDELETE, hcerts, htid]
  decide

def dbC10w : DB := ⟨[⟨"bob", "s", 0, 0⟩], [⟨"bob", "f1", "d", 0, 9, none⟩], [], [], []⟩

/-- Witness for the amended C10 theorem: alice is absent from a store
that only knows bob. -/
theorem c10_remove_absent_amended_witness :
    userHandlerDELETE dbC10w 5 "alice"
      = ({dbC10w with events := dbC10w.events ++ [⟨"user deleted", "alice", "0 certs revoked", 5⟩]}, 200, []) :=
  c10_remove_absent_amended dbC10w 5 "alice" (by decide) (by decide)

/-! ### Claim C6 -/

def dbC6 : DB := ⟨[], [], (List.range 26).map (fun i => ⟨"E", "", "", i⟩), [], []⟩

/-- Claim C6 counterexample: with 26 logged events, DELETE /events (no
before parameter) deletes all 26 but returns only the 25 most recent and
records "25 events cleared": the reset event renders the length of the
truncated listing, not the pre-clear count. -/
theorem c6_clear_truncated_count :
    (eventsHandler (fun _ => none) dbC6 99 "" true).map
        (fun p => (p.2.length, p.1.events.map EventRow.value)) = .ok (25, ["25 events cleared"])
  ∧ dbC6.events.length = 26 := by decide

/-- Claim C6 amended: DELETE /events deletes all events and appends one
"events log reset" event, but both the returned listing and the recorded
count are those of the paginated listing for the request: they cover the
complete pre-clear history exactly when before=all is passed or the log
held at most 25 events; the default request returns and counts only the
25 most recent. -/
theorem c6_clear_amended (parseTs : String → Option Nat) (db : DB) (now : Nat) :
    (∃ evs, eventsHandler parseTs db now "all" true = .ok ({db with events := [⟨"events log reset", "", toString db.events.length ++ " events cleared", now⟩]}, evs) ∧ evs.Perm db.events)
  ∧ (db.events.length ≤ 25 →
      ∃ evs, eventsHandler parseTs db now "" true = .ok ({db with events := [⟨"events log reset", "", toString db.events.length ++ " events cleared", now⟩]}, evs) ∧ evs.Perm db.events) := by
  have hperm := sortLe_perm evGeB db.events
  have hlen : (sortLe evGeB db.events).length = db.events.length := hperm.length_eq
  constructor
  · refine ⟨sortLe evGeB db.events, ?_, hperm⟩
    have hlist : eventsList parseTs db "all" = .ok (sortLe evGeB db.events) := by
      simp [eventsList]
    simp [eventsHandler, hlist, hlen]
  · intro hle
    have htake : (sortLe evGeB db.events).take 25 = sortLe evGeB db.events :=
      List.take_of_length_le (by rw [hlen]; exact hle)
    refine ⟨sortLe evGeB db.events, ?_, hperm⟩
    have hlist : eventsList parseTs db "" = .ok (sortLe evGeB db.events) := by
      simp [eventsList, htake]
    simp [eventsHandler, hlist, hlen]

def dbC6w : DB := ⟨[], [], [⟨"E", "", "", 1⟩, ⟨"E", "", "", 2⟩], [], []⟩

/-- Witness for the amended C6 theorem on a two-event log. -/
theorem c6_clear_amended_witness :
    ∃ evs, eventsHandler (fun _ => none) dbC6w 9 "" true = .ok ({dbC6w with events := [⟨"events log reset", "", toString dbC6w.events.length ++ " events cleared", 9⟩]}, evs) ∧ evs.Perm dbC6w.events :=
  (c6_clear_amended (fun _ => none) dbC6w 9).2 (by decide)

/-! ### Claim C8 -/

/-- Claim C8: GET /events is time-descending and paginated as specified:
no before parameter gives at most the 25 most recent; before=all gives
the complete history (a permutation of the log, descending); a parsable
before timestamp gives at most 25 events strictly older than it,
descending; an unparsable before answers 400 rather than a server
fault. -/
theorem c8_events_pagination (parseTs : String → Option Nat) (db : DB) (before : String) :
    (eventsList parseTs db "" = .ok ((sortLe evGeB db.events).take 25)
       ∧ ((sortLe evGeB db.events).take 25).length ≤ 25
       ∧ ((sortLe evGeB db.events).take 25).Pairwise (fun a b => b.ts ≤ a.ts))
  ∧ (eventsList parseTs db "all" = .ok (sortLe evGeB db.events)
       ∧ (sortLe evGeB db.events).Perm db.events
       ∧ (sortLe evGeB db.events).Pairwise (fun a b => b.ts ≤ a.ts))
  ∧ (∀ t : Nat, ¬ before = "" → ¬ before = "all" → parseTs before = some t →
       ∃ r, eventsList parseTs db before = .ok r
         ∧ r.length ≤ 25
         ∧ r.Pairwise (fun a b => b.ts ≤ a.ts)
         ∧ ∀ e ∈ r, e.ts < t)
  ∧ (¬ before = "" → ¬ before = "all" → parseTs before = none →
       eventsList parseTs db before = .error 400) := by
  have hsortedP : ∀ l : List EventRow, (sortLe evGeB l).Pairwise (fun a b => b.ts ≤ a.ts) := by
    intro l
    exact (sortLe_pairwise evGeB evGeB_total evGeB_trans l).imp (fun h => of_decide_eq_true h)
  refine ⟨⟨?_, ?_, ?_⟩, ⟨?_, ?_, ?_⟩, ?_, ?_⟩
  · simp [eventsList]
  · exact List.length_take_le 25 _
  · exact List.Pairwise.sublist (List.take_sublist 25 _) (hsortedP db.events)
  · simp [eventsList]
  · exact sortLe_perm evGeB db.events
  · exact hsortedP db.events
  · intro t h1 h2 h3
    refine ⟨(sortLe evGeB (db.events.filter (fun ev => decide (ev.ts < t)))).take 25, ?_, ?_, ?_, ?_⟩
    · simp [eventsList, h1, h2, h3]
    · exact List.length_take_le 25 _
    · exact List.Pairwise.sublist (List.take_sublist 25 _) (hsortedP _)
    · intro e he
      have he2 : e ∈ sortLe evGeB (db.events.filter (fun ev => decide (ev.ts < t))) :=
        (List.take_sublist 25 _).subset he
      have he3 : e ∈ db.events.filter (fun ev => decide (ev.ts < t)) :=
        (sortLe_perm evGeB _).mem_iff.mp he2
      have he4 := List.of_mem_filter he3
      exact of_decide_eq_true he4
  · intro h1 h2 h3
    simp [eventsList, h1, h2, h3]

def parseTsC8 : String → Option Nat := fun v => if v = "T" then some 2 else none

def dbC8w : DB := ⟨[], [], [⟨"E", "", "", 1⟩, ⟨"E", "", "", 3⟩], [], []⟩

/-- Witness for C8 at a concrete parser, log, and cursor. -/
theorem c8_events_pagination_witness :
    ∃ r, eventsList parseTsC8 dbC8w "T" = .ok r
  ∧ r.length ≤ 25
  ∧ r.Pairwise (fun a b => b.ts ≤ a.ts)
  ∧ ∀ e ∈ r, e.ts < 2 :=
  (c8_events_pagination parseTsC8 dbC8w "T").2.2.1 2 (by decide) (by decide) (by decide)

/-! ### Claim C7 -/

/-- Shape of the settings rows after storeSettings: the rows whose key is
none of the four stored keys, followed by the four freshly upserted
rows in store order. -/
theorem storeSettings_shape (db : DB) (s : Settings) :
    (storeSettings db s).settings
      = ((((db.settings.filter (fun kv => !(decide (kv.1 = "ServiceName")))).filter
            (fun kv => !(decide (kv.1 = "IssuedCertDuration")))).filter
            (fun kv => !(decide (kv.1 = "ClientLimit")))).filter
            (fun kv => !(decide (kv.1 = "WhitelistedDomains"))))
        ++ [("ServiceName", .str s.serviceName),
            ("IssuedCertDuration", .int s.issuedCertDuration),
            ("ClientLimit", .int s.clientLimit),
            ("WhitelistedDomains", .str (goJoinSpace s.whitelistedDomains))] := by
  simp [storeSettings, upsertSetting, List.filter_append, List.filter]

/-- Claim C7: storing a valid snapshot and loading it back returns the
same ServiceName, ClientLimit, IssuedCertDuration and WhitelistedDomains,
while WhitelistedUsers is recomputed from the live whitelist table (in
ascending order) regardless of the stored value, and storeSettings never
writes a WhitelistedUsers row.  Validity: the domain list is sorted
ascending with nonempty space-free tokens (so that the space-delimited
encoding is faithful), the two integer fields fit in 32 bits (ParseInt
uses bitSize 32 on load), and the whitelist holds no empty email. -/
theorem c7_settings_roundtrip (db : DB) (s : Settings)
    (hsorted : s.whitelistedDomains.Pairwise (fun a b => strLeB a b = true))
    (htok : ∀ d ∈ s.whitelistedDomains, ¬ d = "" ∧ ' ' ∉ d.data)
    (hcl : -(2 ^ 31) ≤ s.clientLimit ∧ s.clientLimit < 2 ^ 31)
    (hicd : -(2 ^ 31) ≤ s.issuedCertDuration ∧ s.issuedCertDuration < 2 ^ 31)
    (hwl : ¬ "" ∈ db.whitelist) :
    loadSettings (storeSettings db s) = .ok {s with whitelistedUsers := sortLe strLeB db.whitelist}
  ∧ (sortLe strLeB db.whitelist).Perm db.whitelist
  ∧ (∀ v, (("WhitelistedUsers", v) ∈ (storeSettings db s).settings
        ↔ ("WhitelistedUsers", v) ∈ db.settings)) := by
  obtain ⟨sn, cl, icd, doms, wu⟩ := s
  simp only at hsorted htok hcl hicd
  have hint1 : svalParseInt32 (.int icd) = some icd := by
    show (if -(2 ^ 31) ≤ icd ∧ icd < 2 ^ 31 then some icd else none) = some icd
    rw [if_pos (And.intro hicd.1 hicd.2)]
  have hint2 : svalParseInt32 (.int cl) = some cl := by
    show (if -(2 ^ 31) ≤ cl ∧ cl < 2 ^ 31 then some cl else none) = some cl
    rw [if_pos (And.intro hcl.1 hcl.2)]
  have hdom : goSplitSpaceNE (goJoinSpace doms) = doms :=
    goSplit_goJoin doms (fun d hd => (htok d hd).1) (fun d hd => (htok d hd).2)
  have hsort : sortLe strLeB doms = doms := sortLe_eq_of_pairwise strLeB doms hsorted
  have hshape := storeSettings_shape db ⟨sn, cl, icd, doms, wu⟩
  have hskip : ((((db.settings.filter (fun kv => !(decide (kv.1 = "ServiceName")))).filter
        (fun kv => !(decide (kv.1 = "IssuedCertDuration")))).filter
        (fun kv => !(decide (kv.1 = "ClientLimit")))).filter
        (fun kv => !(decide (kv.1 = "WhitelistedDomains")))).foldlM
        applySettingRow defaultSettings = .ok defaultSettings := by
    apply foldlM_applySettingRow_skip
    intro kv hkv
    have h4 := List.of_mem_filter hkv
    have hkv3 := List.mem_of_mem_filter hkv
    have h3 := List.of_mem_filter hkv3
    have hkv2 := List.mem_of_mem_filter hkv3
    have h2 := List.of_mem_filter hkv2
    have hkv1 := List.mem_of_mem_filter hkv2
    have h1 := List.of_mem_filter hkv1
    simp only [Bool.not_eq_true', decide_eq_false_iff_not] at h1 h2 h3 h4
    exact ⟨h1, h3, h2, h4⟩
  have hfold4 : ([("ServiceName", SVal.str sn),
      ("IssuedCertDuration", SVal.int icd),
      ("ClientLimit", SVal.int cl),
      ("WhitelistedDomains", SVal.str (goJoinSpace doms))].foldlM
        applySettingRow defaultSettings)
      = .ok ⟨sn, cl, icd, doms, []⟩ := by
    simp [List.foldlM, applySettingRow, svalString, hint1, hint2, hdom, hsort, defaultSettings,
      Bind.bind, Except.bind]
    rfl
  have hfold : (storeSettings db ⟨sn, cl, icd, doms, wu⟩).settings.foldlM
      applySettingRow defaultSettings = .ok ⟨sn, cl, icd, doms, []⟩ := by
    rw [hshape, List.foldlM_append, hskip]
    exact hfold4
  refine ⟨?_, sortLe_perm strLeB db.whitelist, ?_⟩
  · have hwlf : (sortLe strLeB db.whitelist).filter (fun e => !(decide (e = "")))
        = sortLe strLeB db.whitelist := by
      apply List.filter_eq_self.mpr
      intro e he
      have hmem : e ∈ db.whitelist := (sortLe_perm strLeB db.whitelist).mem_iff.mp he
      by_cases h0 : e = ""
      · exact absurd (h0 ▸ hmem) hwl
      · simp [h0]
    unfold loadSettings
    rw [hfold]
    have hwhl : (storeSettings db (⟨sn, cl, icd, doms, wu⟩ : Settings)).whitelist
        = db.whitelist := rfl
    simp only [hwhl, hwlf]
  · intro v
    rw [hshape]
    simp [List.mem_filter, List.mem_append]

def sC7 : Settings := ⟨"VPN", 3, 30, ["a.com", "b.com"], ["ignored"]⟩

def dbC7 : DB := ⟨[], [], [], [("Junk", .str "x")], ["w@x"]⟩

/-- Witness for C7: the stored WhitelistedUsers field (ignored) differs
from the live whitelist, and the round trip restores the other four
fields. -/
theorem c7_settings_roundtrip_witness :
    loadSettings (storeSettings dbC7 sC7) = .ok {sC7 with whitelistedUsers := sortLe strLeB dbC7.whitelist}
  ∧ (sortLe strLeB dbC7.whitelist).Perm dbC7.whitelist
  ∧ (∀ v, (("WhitelistedUsers", v) ∈ (storeSettings dbC7 sC7).settings
        ↔ ("WhitelistedUsers", v) ∈ dbC7.settings)) :=
  c7_settings_roundtrip dbC7 sC7 (by decide) (by decide) (by decide) (by decide) (by decide)

end Heimdall
